import Mathlib

/-!
Shallow embedding of the `server` package of rancher-auth-service
(src/server/auth_server.go) together with the external collaborators the
spec describes (settings store, provider registry, token signer).  Strings
are modelled as `List Char` so that every operation is executable and
provable by structural induction.
-/

set_option maxRecDepth 4000

/-- Strings of the Go source, modelled as lists of characters. -/
abbrev Str := List Char

/-- client.Identity: the fields the server package reads and writes
(`Resource.Id`, `ExternalId`, `ExternalIdType`, `Resource.Type`). -/
structure Identity where
  id : Str
  externalId : Str
  externalIdType : Str
  resourceType : Str
deriving DecidableEq

/-- model.AuthConfig: provider name, enabled flag, access mode, allow-list,
plus the provider-specific fields (opaque to the server package, carried as
a key/value list) and the resource type tag. -/
structure AuthConfig where
  resourceType : Str
  provider : Str
  enabled : Bool
  accessMode : Str
  allowedIdentities : List Identity
  providerSpecific : List (Str × Str)
deriving DecidableEq

/-- model.Token returned by a provider: type tag, external account id,
provider access token and the identity list. -/
structure ProviderToken where
  typ : Str
  externalAccountID : Str
  accessToken : Str
  identityList : List Identity

/-- Modelled from the spec: the providers.IdentityProvider capability
contract (the providers package is not under src/).  Each operation is a
pure function; fallible operations return `Except`. -/
structure IdentityProvider where
  getSettings : List (Str × Str)
  getProviderSettingList : List Str
  getIdentity : Str → Str → Str → Except Str Identity
  generateToken : Str → Except Str ProviderToken
  refreshTokenOp : Str → Except Str ProviderToken
  addProviderConfig : List (Str × Str) → List (Str × Str)

/-- Modelled from the spec: a registry entry pairs the zero-value provider
instance (whose `GetProviderSettingList`/`AddProviderConfig` GetConfig uses)
with `LoadConfig`, which validates a config and yields the configured
instance. -/
structure ProviderEntry where
  base : IdentityProvider
  loadConfig : AuthConfig → Except Str IdentityProvider

/-- Modelled from the spec: providers.GetProvider — the registry resolving a
provider name to a zero-value instance; unknown names resolve to `none`. -/
abbrev Registry := Str → Option ProviderEntry

/-- Look up a key in an association list (Go map read). -/
def alookup : List (Str × Str) → Str → Option Str
  | [], _ => none
  | (k2, v) :: rest, k => if k = k2 then some v else alookup rest k

/-- Go map read with zero value: missing keys read as the empty string. -/
def mget (l : List (Str × Str)) (k : Str) : Str := (alookup l k).getD []

/-- Remove every binding of a key from an association list. -/
def removeKey : List (Str × Str) → Str → List (Str × Str)
  | [], _ => []
  | (k2, v) :: rest, k => if k2 = k then removeKey rest k else (k2, v) :: removeKey rest k

/-- Go map write: replace any binding of the key with the new value. -/
def ainsert (l : List (Str × Str)) (k v : Str) : List (Str × Str) :=
  removeKey l k ++ [(k, v)]

/-- Modelled from the spec: the external key/value settings store
(the go-rancher client is an external collaborator).  `vals` is the current
key/value state; `failReads`/`failWrites` are the keys whose store
round-trips fail, so that read/write errors can be exercised. -/
structure Store where
  vals : List (Str × Str)
  failReads : List Str
  failWrites : List Str
deriving DecidableEq

/-- Current stored value of a key (empty string when absent). -/
def Store.get (st : Store) (k : Str) : Str := (alookup st.vals k).getD []

/-- rancherClient.Setting.ById: read a setting's active value, failing for
keys in `failReads`. -/
def Store.byId (st : Store) (k : Str) : Except Str Str :=
  if k ∈ st.failReads then .error ("setting read failed: ".toList ++ k)
  else .ok (st.get k)

/-- Successful rancherClient.Setting.Update: store the new value. -/
def Store.write (st : Store) (k v : Str) : Store :=
  { st with vals := ainsert st.vals k v }

/-- readSettings: read each listed key from the store, accumulating a map;
on the first failing read, stop and report the error. -/
def readSettings (st : Store) : List Str → List (Str × Str) × Option Str
  | [] => ([], none)
  | k :: ks =>
    match st.byId k with
    | .error e => ([], some e)
    | .ok v =>
      let r := readSettings st ks
      ((k, v) :: r.1, r.2)

/-- updateSettings: for each key whose new value is non-empty, read the
setting then write the new value; the first failing round-trip aborts with
its error (earlier writes remain applied). -/
def updateSettings (st : Store) : List (Str × Str) → Store × Option Str
  | [] => (st, none)
  | (k, v) :: rest =>
    if v = [] then updateSettings st rest
    else
      match st.byId k with
      | .error e => (st, some e)
      | .ok _ =>
        if k ∈ st.failWrites then (st, some ("setting write failed: ".toList ++ k))
        else updateSettings (st.write k v) rest

/-- The constant "api.auth.github.access.mode". -/
def accessModeSetting : Str := "api.auth.github.access.mode".toList

/-- The constant "api.auth.github.allowed.identities". -/
def allowedIdentitiesSetting : Str := "api.auth.github.allowed.identities".toList

/-- The constant "api.auth.provider.configured". -/
def providerSetting : Str := "api.auth.provider.configured".toList

/-- The constant "api.auth.provider.name.configured". -/
def providerNameSetting : Str := "api.auth.provider.name.configured".toList

/-- The constant "api.security.enabled". -/
def securitySetting : Str := "api.security.enabled".toList

/-- strconv.FormatBool. -/
def formatBool (b : Bool) : Str := if b then "true".toList else "false".toList

/-- strconv.ParseBool: accepts 1/t/T/true/TRUE/True and 0/f/F/false/FALSE/False. -/
def parseBool (s : Str) : Except Str Bool :=
  if s = "1".toList ∨ s = "t".toList ∨ s = "T".toList ∨
     s = "true".toList ∨ s = "TRUE".toList ∨ s = "True".toList then .ok true
  else if s = "0".toList ∨ s = "f".toList ∨ s = "F".toList ∨
     s = "false".toList ∨ s = "FALSE".toList ∨ s = "False".toList then .ok false
  else .error "parsing bool: invalid syntax".toList

/-- strings.Split on a single separator character. -/
def splitOnChar (sep : Char) : List Char → List (List Char)
  | [] => [[]]
  | c :: cs =>
    if c = sep then [] :: splitOnChar sep cs
    else
      match splitOnChar sep cs with
      | [] => [[c]]
      | h :: t => (c :: h) :: t

/-- strings.Join with a single separator character. -/
def joinWithChar (sep : Char) : List (List Char) → List Char
  | [] => []
  | [x] => x
  | x :: y :: t => x ++ sep :: joinWithChar sep (y :: t)

/-- strings.SplitN(s, sep, 2): split at the first occurrence of the
separator; `none` when the separator does not occur. -/
def splitFirstChar (sep : Char) : List Char → Option (List Char × List Char)
  | [] => none
  | c :: cs =>
    if c = sep then some ([], cs)
    else
      match splitFirstChar sep cs with
      | none => none
      | some (a, b) => some (c :: a, b)

/-- initProviderWithConfig: resolve the named provider in the registry and
load the submitted config into it. -/
def initProviderWithConfig (reg : Registry) (authConfig : AuthConfig) :
    Except Str IdentityProvider :=
  match reg authConfig.provider with
  | none => .error ("Could not get the ".toList ++ authConfig.provider ++ " auth provider".toList)
  | some entry => entry.loadConfig authConfig

/-- getAllowedIDString: when a provider is active (the process-wide
`provider` global is non-nil) join the allow-list identities' ids with
commas; otherwise return the empty string. -/
def getAllowedIDString (provider : Option IdentityProvider)
    (allowedIdentities : List Identity) : Str :=
  match provider with
  | some _ => joinWithChar ',' (allowedIdentities.map Identity.id)
  | none => []

/-- The stub Identity synthesized for an allow-list entry: id is the raw
entry, type/externalId come from the split, resource type is "identity". -/
def stubIdentity (entry ty ext : Str) : Identity :=
  { id := entry, externalId := ext, externalIdType := ty,
    resourceType := "identity".toList }

/-- The per-entry loop body of getAllowedIdentities: entries without a ':'
are skipped; otherwise resolve via the provider when one is active and the
access token is non-empty, falling back to a stub Identity. -/
def resolveEntries (provider : Option IdentityProvider) (accessToken : Str) :
    List Str → List Identity
  | [] => []
  | entry :: rest =>
    match splitFirstChar ':' entry with
    | none => resolveEntries provider accessToken rest
    | some (ty, ext) =>
      let resolved : Identity :=
        match provider with
        | some pr =>
          if accessToken = [] then stubIdentity entry ty ext
          else
            match pr.getIdentity ext ty accessToken with
            | .ok i => i
            | .error _ => stubIdentity entry ty ext
        | none => stubIdentity entry ty ext
      resolved :: resolveEntries provider accessToken rest

/-- getAllowedIdentities: expand the comma-joined allow-list string into
Identity records (empty input yields the empty list). -/
def getAllowedIdentities (provider : Option IdentityProvider)
    (idString accessToken : Str) : List Identity :=
  if idString = [] then []
  else resolveEntries provider accessToken (splitOnChar ',' idString)

/-- The settings map UpdateConfig persists: the provider-exported settings
plus the four generic keys, plus — only when enabled — the configured
provider key.  The allow-list is serialized against the previously active
global provider. -/
def buildProviderSettings (provider : Option IdentityProvider)
    (newProvider : IdentityProvider) (authConfig : AuthConfig) :
    List (Str × Str) :=
  let ps := newProvider.getSettings
  let ps := ainsert ps accessModeSetting authConfig.accessMode
  let ps := ainsert ps allowedIdentitiesSetting
    (getAllowedIDString provider authConfig.allowedIdentities)
  let ps := ainsert ps securitySetting (formatBool authConfig.enabled)
  let ps := ainsert ps providerNameSetting authConfig.provider
  if authConfig.enabled then ainsert ps providerSetting authConfig.provider else ps

/-- Result of UpdateConfig: the process-wide (provider, config) pair, the
store state after the settings writes, and the returned error. -/
structure UpdateResult where
  provider : Option IdentityProvider
  config : AuthConfig
  store : Store
  err : Option Str

/-- UpdateConfig: initialize the new provider from the submitted config,
persist the settings map, and only on full success swap the process-wide
(provider, config) pair. -/
def UpdateConfig (reg : Registry) (provider : Option IdentityProvider)
    (authConfigInMemory : AuthConfig) (st : Store) (authConfig : AuthConfig) :
    UpdateResult :=
  match initProviderWithConfig reg authConfig with
  | .error e =>
    { provider := provider, config := authConfigInMemory, store := st, err := some e }
  | .ok newProvider =>
    let r := updateSettings st (buildProviderSettings provider newProvider authConfig)
    match r.2 with
    | some e =>
      { provider := provider, config := authConfigInMemory, store := r.1, err := some e }
    | none =>
      { provider := some newProvider, config := authConfig, store := r.1, err := none }

/-- Result of GetConfig: the composed AuthConfig and the returned error. -/
structure GetConfigResult where
  config : AuthConfig
  err : Option Str
deriving DecidableEq

/-- The zero-value AuthConfig GetConfig starts from (resource type "config"). -/
def emptyConfig : AuthConfig :=
  { resourceType := "config".toList, provider := [], enabled := false,
    accessMode := [], allowedIdentities := [], providerSpecific := [] }

/-- GetConfig: read the five generic keys, rebuild the AuthConfig (resolving
the allow-list against the active global provider with the caller's access
token), resolve the persisted provider name in the registry, then read the
provider-declared keys — whose read error is dropped, as in the source. -/
def GetConfig (reg : Registry) (provider : Option IdentityProvider)
    (st : Store) (accessToken : Str) : GetConfigResult :=
  let settings := [accessModeSetting, allowedIdentitiesSetting, securitySetting,
    providerSetting, providerNameSetting]
  let r := readSettings st settings
  match r.2 with
  | some e => { config := emptyConfig, err := some e }
  | none =>
    let dbSettings := r.1
    let config :=
      { emptyConfig with
        accessMode := mget dbSettings accessModeSetting,
        allowedIdentities := getAllowedIdentities provider
          (mget dbSettings allowedIdentitiesSetting) accessToken,
        enabled :=
          match parseBool (mget dbSettings securitySetting) with
          | .ok e => e
          | .error _ => false,
        provider := mget dbSettings providerNameSetting }
    match reg config.provider with
    | none =>
      { config := config,
        err := some ("Could not get the ".toList ++ config.provider ++ " auth provider".toList) }
    | some entry =>
      let providerSettings := (readSettings st entry.base.getProviderSettingList).1
      { config := { config with
          providerSpecific := entry.base.addProviderConfig providerSettings },
        err := none }

/-- Result of Reload: the process-wide (provider, config) pair and error. -/
structure ReloadResult where
  provider : Option IdentityProvider
  config : AuthConfig
  err : Option Str

/-- Reload: re-read the config via GetConfig with an empty token (its error
is shadowed, as in the source) and re-run the provider init/swap. -/
def Reload (reg : Registry) (provider : Option IdentityProvider)
    (authConfigInMemory : AuthConfig) (st : Store) : ReloadResult :=
  let g := GetConfig reg provider st []
  match initProviderWithConfig reg g.config with
  | .error e => { provider := provider, config := authConfigInMemory, err := some e }
  | .ok newProvider => { provider := some newProvider, config := g.config, err := none }

/-- The claims payload signed into a token: token kind, account id, provider
access token, identity id list and the identity records. -/
structure TokenPayload where
  token : Str
  accountID : Str
  accessToken : Str
  idList : List Str
  identities : List Identity

/-- identitiesToIDList: the Resource.Id of each identity, in order. -/
def identitiesToIDList (identities : List Identity) : List Str :=
  identities.map Identity.id

/-- The claims payload CreateToken/RefreshToken assemble from a provider
token. -/
def makeTokenPayload (token : ProviderToken) : TokenPayload :=
  { token := token.typ, accountID := token.externalAccountID,
    accessToken := token.accessToken,
    idList := identitiesToIDList token.identityList,
    identities := token.identityList }

/-- Modelled from the spec: util.CreateTokenWithPayload — the signer over
the private key (not under src/), abstracted as a function from payload to
signed token string that may fail. -/
abbrev Signer := TokenPayload → Except Str Str

/-- CreateToken: with no active provider fail; otherwise exchange the
security code, assemble the claims payload and sign it. -/
def CreateToken (provider : Option IdentityProvider) (sign : Signer)
    (securityCode : Str) : Except Str Str :=
  match provider with
  | some pr =>
    match pr.generateToken securityCode with
    | .error e => .error e
    | .ok token => sign (makeTokenPayload token)
  | none => .error "No auth provider configured".toList

/-- RefreshToken: with no active provider fail; otherwise refresh the
provider token, assemble the claims payload and sign it. -/
def RefreshToken (provider : Option IdentityProvider) (sign : Signer)
    (accessToken : Str) : Except Str Str :=
  match provider with
  | some pr =>
    match pr.refreshTokenOp accessToken with
    | .error e => .error e
    | .ok token => sign (makeTokenPayload token)
  | none => .error "No auth provider configured".toList

/-- GetConfig run on the state UpdateConfig leaves behind (the composition
the round-trip property is about). -/
def getAfterUpdate (reg : Registry) (provider : Option IdentityProvider)
    (authConfigInMemory : AuthConfig) (st : Store) (authConfig : AuthConfig)
    (accessToken : Str) : GetConfigResult :=
  let r := UpdateConfig reg provider authConfigInMemory st authConfig
  GetConfig reg r.provider r.store accessToken

/-- A minimal provider used to exercise the server operations at concrete
inputs: identity lookups and token exchanges fail, no provider-specific
settings. -/
def demoProvider : IdentityProvider :=
  { getSettings := [],
    getProviderSettingList := [],
    getIdentity := fun _ _ _ => .error "identity not found".toList,
    generateToken := fun _ => .error "authentication failed".toList,
    refreshTokenOp := fun _ => .error "authentication failed".toList,
    addProviderConfig := fun s => s }

/-- Registry entry for `demoProvider`: loading any config succeeds. -/
def demoEntry : ProviderEntry :=
  { base := demoProvider, loadConfig := fun _ => .ok demoProvider }

/-- A registry with the single provider name "github". -/
def demoRegistry : Registry :=
  fun name => if name = "github".toList then some demoEntry else none

/-- The provider-specific settings key declared by `c2Provider`. -/
def githubClientIdSetting : Str := "api.auth.github.client.id".toList

/-- A provider declaring one provider-specific settings key. -/
def c2Provider : IdentityProvider :=
  { getSettings := [],
    getProviderSettingList := [githubClientIdSetting],
    getIdentity := fun _ _ _ => .error "identity not found".toList,
    generateToken := fun _ => .error "authentication failed".toList,
    refreshTokenOp := fun _ => .error "authentication failed".toList,
    addProviderConfig := fun s => s }

/-- Registry entry for `c2Provider`. -/
def c2Entry : ProviderEntry :=
  { base := c2Provider, loadConfig := fun _ => .ok c2Provider }

/-- A registry resolving "github" to `c2Provider`. -/
def c2Registry : Registry :=
  fun name => if name = "github".toList then some c2Entry else none

/-- A store where reading the provider-specific key fails while all generic
keys read fine. -/
def c2Store : Store :=
  { vals := [(securitySetting, "true".toList),
             (providerNameSetting, "github".toList),
             (accessModeSetting, "unrestricted".toList)],
    failReads := [githubClientIdSetting],
    failWrites := [] }

/-- A store with all five generic keys persisted and no failures. -/
def c1CexStore : Store :=
  { vals := [(accessModeSetting, "restricted".toList),
             (allowedIdentitiesSetting, "group:g1".toList),
             (securitySetting, "false".toList),
             (providerSetting, "github".toList),
             (providerNameSetting, "github".toList)],
    failReads := [],
    failWrites := [] }

/-- A valid config naming the registered provider, with one allow-list
identity. -/
def c1CexConfig : AuthConfig :=
  { resourceType := "config".toList, provider := "github".toList,
    enabled := true, accessMode := "unrestricted".toList,
    allowedIdentities := [stubIdentity "user:abc".toList "user".toList "abc".toList],
    providerSpecific := [] }

/-- The empty store: no persisted keys, no failures. -/
def demoStore : Store := { vals := [], failReads := [], failWrites := [] }

/-- A disabled config naming the registered provider. -/
def c7Config : AuthConfig :=
  { resourceType := "config".toList, provider := "github".toList,
    enabled := false, accessMode := "required".toList,
    allowedIdentities := [], providerSpecific := [] }

/-- A store whose write of the security key fails. -/
def c8Store : Store :=
  { vals := [], failReads := [], failWrites := [securitySetting] }

/-! Association-list and store lemmas. -/

theorem alookup_removeKey_self (l : List (Str × Str)) (k : Str) :
    alookup (removeKey l k) k = none := by
  induction l with
  | nil => rfl
  | cons kv rest ih =>
    obtain ⟨k2, v⟩ := kv
    by_cases h : k2 = k
    · simpa [removeKey, h] using ih
    · simp [removeKey, h, alookup, Ne.symm h, ih]

theorem alookup_removeKey_ne (l : List (Str × Str)) (k k2 : Str) (h : k ≠ k2) :
    alookup (removeKey l k2) k = alookup l k := by
  induction l with
  | nil => rfl
  | cons kv rest ih =>
    obtain ⟨k3, v⟩ := kv
    by_cases h3 : k3 = k2
    · simp [removeKey, h3, alookup, h, ih]
    · by_cases hk : k = k3
      · simp [removeKey, h3, alookup, hk]
      · simp [removeKey, h3, alookup, hk, ih]

theorem alookup_append (a b : List (Str × Str)) (k : Str) :
    alookup (a ++ b) k =
      match alookup a k with
      | some v => some v
      | none => alookup b k := by
  induction a with
  | nil => simp [alookup]
  | cons kv rest ih =>
    obtain ⟨k2, v⟩ := kv
    by_cases h : k = k2
    · simp [alookup, h]
    · simp [alookup, h, ih]

theorem alookup_ainsert_self (l : List (Str × Str)) (k v : Str) :
    alookup (ainsert l k v) k = some v := by
  simp [ainsert, alookup_append, alookup_removeKey_self, alookup]

theorem alookup_ainsert_ne (l : List (Str × Str)) (k k2 v : Str) (h : k ≠ k2) :
    alookup (ainsert l k2 v) k = alookup l k := by
  simp [ainsert, alookup_append, alookup_removeKey_ne l k k2 h, alookup, h]
  cases alookup l k <;> simp

theorem Store.get_write_self (st : Store) (k v : Str) :
    (st.write k v).get k = v := by
  simp [Store.write, Store.get, alookup_ainsert_self]

theorem Store.get_write_ne (st : Store) (k k2 v : Str) (h : k ≠ k2) :
    (st.write k2 v).get k = st.get k := by
  simp [Store.write, Store.get, alookup_ainsert_ne st.vals k k2 v h]

theorem Store.write_failReads (st : Store) (k v : Str) :
    (st.write k v).failReads = st.failReads := rfl

theorem Store.write_failWrites (st : Store) (k v : Str) :
    (st.write k v).failWrites = st.failWrites := rfl

theorem mem_removeKey (l : List (Str × Str)) (k k2 v : Str)
    (h : (k, v) ∈ removeKey l k2) : (k, v) ∈ l ∧ k ≠ k2 := by
  induction l with
  | nil => simp [removeKey] at h
  | cons kv rest ih =>
    obtain ⟨k3, v3⟩ := kv
    by_cases h3 : k3 = k2
    · simp only [removeKey, if_pos h3] at h
      obtain ⟨hm, hne⟩ := ih h
      exact ⟨List.mem_cons_of_mem _ hm, hne⟩
    · simp only [removeKey, if_neg h3] at h
      rcases List.mem_cons.mp h with he | hm
      · simp only [Prod.mk.injEq] at he
        obtain ⟨hk, hv⟩ := he
        subst hk
        subst hv
        exact ⟨List.mem_cons_self _ _, h3⟩
      · obtain ⟨hm2, hne⟩ := ih hm
        exact ⟨List.mem_cons_of_mem _ hm2, hne⟩

theorem mem_ainsert (l : List (Str × Str)) (k k2 v v2 : Str)
    (h : (k, v) ∈ ainsert l k2 v2) : (k = k2 ∧ v = v2) ∨ ((k, v) ∈ l ∧ k ≠ k2) := by
  rcases List.mem_append.mp h with hm | hm
  · exact Or.inr (mem_removeKey l k k2 v hm)
  · rcases List.mem_singleton.mp hm with he
    obtain ⟨hk, hv⟩ := Prod.mk.injEq .. ▸ he
    exact Or.inl ⟨hk, hv⟩

/-- The value the settings-update loop leaves under a key: the last binding
of the key in the list whose value is non-empty, if any. -/
def lastVal (k : Str) : List (Str × Str) → Option Str
  | [] => none
  | (k2, v) :: rest =>
    match lastVal k rest with
    | some w => some w
    | none => if k2 = k ∧ v ≠ [] then some v else none

theorem updateSettings_failReads (l : List (Str × Str)) (st : Store) :
    ((updateSettings st l).1).failReads = st.failReads := by
  induction l generalizing st with
  | nil => rfl
  | cons kv rest ih =>
    obtain ⟨k, v⟩ := kv
    by_cases hv : v = []
    · simpa [updateSettings, hv] using ih st
    · simp only [updateSettings, if_neg hv]
      cases hb : st.byId k with
      | error e => rfl
      | ok w =>
        by_cases hw : k ∈ st.failWrites
        · simp [hw]
        · simpa [hw] using ih (st.write k v)

theorem updateSettings_failWrites (l : List (Str × Str)) (st : Store) :
    ((updateSettings st l).1).failWrites = st.failWrites := by
  induction l generalizing st with
  | nil => rfl
  | cons kv rest ih =>
    obtain ⟨k, v⟩ := kv
    by_cases hv : v = []
    · simpa [updateSettings, hv] using ih st
    · simp only [updateSettings, if_neg hv]
      cases hb : st.byId k with
      | error e => rfl
      | ok w =>
        by_cases hw : k ∈ st.failWrites
        · simp [hw]
        · simpa [hw] using ih (st.write k v)

theorem updateSettings_get_of_ok (l : List (Str × Str)) (st : Store)
    (hok : (updateSettings st l).2 = none) (k : Str) :
    ((updateSettings st l).1).get k = (lastVal k l).getD (st.get k) := by
  induction l generalizing st with
  | nil => rfl
  | cons kv rest ih =>
    obtain ⟨k2, v⟩ := kv
    by_cases hv : v = []
    · simp only [updateSettings, if_pos hv] at hok ⊢
      rw [ih st hok]
      simp only [lastVal, hv]
      cases lastVal k rest with
      | some w => rfl
      | none => simp
    · simp only [updateSettings, if_neg hv] at hok ⊢
      cases hb : st.byId k2 with
      | error e => simp [hb] at hok
      | ok w =>
        simp only [hb] at hok ⊢
        by_cases hw : k2 ∈ st.failWrites
        · simp [hw] at hok
        · simp only [if_neg hw] at hok ⊢
          rw [ih (st.write k2 v) hok]
          simp only [lastVal]
          cases lastVal k rest with
          | some u => rfl
          | none =>
            by_cases hk : k2 = k
            · subst hk
              simp [hv, Store.get_write_self]
            · have : ¬ (k2 = k ∧ v ≠ []) := fun hc => hk hc.1
              simp only [if_neg this, Option.getD_none]
              exact Store.get_write_ne st k k2 v (Ne.symm hk)

theorem updateSettings_get_of_all_empty (l : List (Str × Str)) (st : Store)
    (k : Str) (hall : ∀ kv ∈ l, kv.1 = k → kv.2 = []) :
    ((updateSettings st l).1).get k = st.get k := by
  induction l generalizing st with
  | nil => rfl
  | cons kv rest ih =>
    obtain ⟨k2, v⟩ := kv
    have hrest : ∀ kv ∈ rest, kv.1 = k → kv.2 = [] :=
      fun kv hm => hall kv (List.mem_cons_of_mem _ hm)
    by_cases hv : v = []
    · simpa [updateSettings, hv] using ih st hrest
    · have hk2 : k2 ≠ k := fun he => hv (hall (k2, v) (List.mem_cons_self _ _) he)
      simp only [updateSettings, if_neg hv]
      cases hb : st.byId k2 with
      | error e => rfl
      | ok w =>
        by_cases hw : k2 ∈ st.failWrites
        · simp [hw]
        · have := ih (st.write k2 v) hrest
          simpa [hw, this] using Store.get_write_ne st k k2 v (Ne.symm hk2)

/-- The entries of a settings map whose values are non-empty. -/
def dropEmptyVals : List (Str × Str) → List (Str × Str)
  | [] => []
  | (k, v) :: rest => if v = [] then dropEmptyVals rest else (k, v) :: dropEmptyVals rest

theorem updateSettings_dropEmptyVals (l : List (Str × Str)) (st : Store) :
    updateSettings st l = updateSettings st (dropEmptyVals l) := by
  induction l generalizing st with
  | nil => rfl
  | cons kv rest ih =>
    obtain ⟨k, v⟩ := kv
    by_cases hv : v = []
    · simpa [updateSettings, dropEmptyVals, hv] using ih st
    · simp only [updateSettings, dropEmptyVals, if_neg hv]
      cases hb : st.byId k with
      | error e => rfl
      | ok w =>
        by_cases hw : k ∈ st.failWrites
        · simp [hw]
        · simpa [hw] using ih (st.write k v)

theorem readSettings_of_no_failures (keys : List Str) (st : Store)
    (hfr : st.failReads = []) :
    readSettings st keys = (keys.map fun k => (k, st.get k), none) := by
  induction keys with
  | nil => rfl
  | cons k ks ih =>
    have hb : st.byId k = .ok (st.get k) := by simp [Store.byId, hfr]
    simp [readSettings, hb, ih]

theorem lastVal_append (k : Str) (a b : List (Str × Str)) :
    lastVal k (a ++ b) =
      match lastVal k b with
      | some w => some w
      | none => lastVal k a := by
  induction a with
  | nil =>
    simp only [List.nil_append, lastVal]
    cases lastVal k b <;> rfl
  | cons kv rest ih =>
    obtain ⟨k2, v⟩ := kv
    rw [List.cons_append, lastVal, ih, lastVal]
    cases h1 : lastVal k b with
    | some w => rfl
    | none => cases lastVal k rest <;> rfl

theorem lastVal_removeKey_self (k : Str) (l : List (Str × Str)) :
    lastVal k (removeKey l k) = none := by
  induction l with
  | nil => rfl
  | cons kv rest ih =>
    obtain ⟨k2, v⟩ := kv
    by_cases h : k2 = k
    · simpa [removeKey, h] using ih
    · simp [removeKey, h, lastVal, ih]

theorem lastVal_removeKey_ne (k k2 : Str) (l : List (Str × Str)) (h : k ≠ k2) :
    lastVal k (removeKey l k2) = lastVal k l := by
  induction l with
  | nil => rfl
  | cons kv rest ih =>
    obtain ⟨k3, v⟩ := kv
    by_cases h3 : k3 = k2
    · have hne : ¬ (k3 = k ∧ v ≠ []) := fun hc => h (hc.1 ▸ h3 ▸ rfl)
      rw [removeKey]
      simp only [if_pos h3, ih, lastVal]
      cases lastVal k rest with
      | some w => rfl
      | none => simp [hne]
    · rw [removeKey]
      simp only [if_neg h3, lastVal, ih]

theorem lastVal_ainsert_self (k v : Str) (l : List (Str × Str)) :
    lastVal k (ainsert l k v) = if v = [] then none else some v := by
  rw [ainsert, lastVal_append]
  have h1 : lastVal k [(k, v)] = if v = [] then none else some v := by
    simp only [lastVal]
    by_cases hv : v = []
    · simp [hv]
    · simp [hv]
  rw [h1]
  by_cases hv : v = []
  · simp [hv, lastVal_removeKey_self]
  · simp [hv]

theorem lastVal_ainsert_ne (k k2 v : Str) (l : List (Str × Str)) (h : k ≠ k2) :
    lastVal k (ainsert l k2 v) = lastVal k l := by
  rw [ainsert, lastVal_append]
  have h1 : lastVal k [(k2, v)] = none := by
    have : ¬ (k2 = k ∧ v ≠ []) := fun hc => h (hc.1.symm)
    simp [lastVal, this]
  rw [h1, lastVal_removeKey_ne k k2 l h]

theorem splitOnChar_no_sep (sep : Char) (x : List Char) (h : sep ∉ x) :
    splitOnChar sep x = [x] := by
  induction x with
  | nil => rfl
  | cons c cs ih =>
    have hc : c ≠ sep := fun he => h (he ▸ List.mem_cons_self _ _)
    have hcs : sep ∉ cs := fun hm => h (List.mem_cons_of_mem _ hm)
    simp [splitOnChar, hc, ih hcs]

theorem splitOnChar_append_sep (sep : Char) (x r : List Char) (h : sep ∉ x) :
    splitOnChar sep (x ++ sep :: r) = x :: splitOnChar sep r := by
  induction x with
  | nil => simp [splitOnChar]
  | cons c cs ih =>
    have hc : c ≠ sep := fun he => h (he ▸ List.mem_cons_self _ _)
    have hcs : sep ∉ cs := fun hm => h (List.mem_cons_of_mem _ hm)
    simp [splitOnChar, hc, ih hcs]

theorem splitOnChar_joinWithChar (sep : Char) (parts : List (List Char))
    (hne : parts ≠ []) (h : ∀ p ∈ parts, sep ∉ p) :
    splitOnChar sep (joinWithChar sep parts) = parts := by
  induction parts with
  | nil => exact absurd rfl hne
  | cons x rest ih =>
    cases rest with
    | nil =>
      exact splitOnChar_no_sep sep x (h x (List.mem_cons_self _ _))
    | cons y t =>
      have hx : sep ∉ x := h x (List.mem_cons_self _ _)
      have hrest : ∀ p ∈ y :: t, sep ∉ p := fun p hp => h p (List.mem_cons_of_mem _ hp)
      rw [joinWithChar, splitOnChar_append_sep sep x _ hx,
        ih (List.cons_ne_nil _ _) hrest]

theorem splitFirstChar_of_prefix (sep : Char) (a b : List Char) (h : sep ∉ a) :
    splitFirstChar sep (a ++ sep :: b) = some (a, b) := by
  induction a with
  | nil => simp [splitFirstChar]
  | cons c cs ih =>
    have hc : c ≠ sep := fun he => h (he ▸ List.mem_cons_self _ _)
    have hcs : sep ∉ cs := fun hm => h (List.mem_cons_of_mem _ hm)
    simp [splitFirstChar, hc, ih hcs]

theorem splitFirstChar_of_no_sep (sep : Char) (x : List Char) (h : sep ∉ x) :
    splitFirstChar sep x = none := by
  induction x with
  | nil => rfl
  | cons c cs ih =>
    have hc : c ≠ sep := fun he => h (he ▸ List.mem_cons_self _ _)
    have hcs : sep ∉ cs := fun hm => h (List.mem_cons_of_mem _ hm)
    simp [splitFirstChar, hc, ih hcs]

theorem parseBool_formatBool (b : Bool) : parseBool (formatBool b) = .ok b := by
  cases b <;> rfl

theorem formatBool_ne_nil (b : Bool) : formatBool b ≠ [] := by
  cases b <;> decide

theorem joinWithChar_ne_nil (sep : Char) (x : List Char) (t : List (List Char))
    (hx : x ≠ []) : joinWithChar sep (x :: t) ≠ [] := by
  cases t with
  | nil => simpa [joinWithChar] using hx
  | cons y t2 =>
    rw [joinWithChar]
    intro hc
    rcases List.append_eq_nil.mp hc with ⟨_, h2⟩
    exact List.cons_ne_nil _ _ h2

theorem lastVal_build_accessMode (gp : Option IdentityProvider)
    (newP : IdentityProvider) (cfg : AuthConfig) :
    lastVal accessModeSetting (buildProviderSettings gp newP cfg) =
      if cfg.accessMode = [] then none else some cfg.accessMode := by
  unfold buildProviderSettings
  by_cases he : cfg.enabled
  · simp only [he, if_true]
    rw [lastVal_ainsert_ne _ _ _ _ (by decide), lastVal_ainsert_ne _ _ _ _ (by decide),
      lastVal_ainsert_ne _ _ _ _ (by decide), lastVal_ainsert_ne _ _ _ _ (by decide),
      lastVal_ainsert_self]
  · simp only [he, Bool.false_eq_true, if_false]
    rw [lastVal_ainsert_ne _ _ _ _ (by decide), lastVal_ainsert_ne _ _ _ _ (by decide),
      lastVal_ainsert_ne _ _ _ _ (by decide), lastVal_ainsert_self]

theorem lastVal_build_allowedIdentities (gp : Option IdentityProvider)
    (newP : IdentityProvider) (cfg : AuthConfig) :
    lastVal allowedIdentitiesSetting (buildProviderSettings gp newP cfg) =
      if getAllowedIDString gp cfg.allowedIdentities = [] then none
      else some (getAllowedIDString gp cfg.allowedIdentities) := by
  unfold buildProviderSettings
  by_cases he : cfg.enabled
  · simp only [he, if_true]
    rw [lastVal_ainsert_ne _ _ _ _ (by decide), lastVal_ainsert_ne _ _ _ _ (by decide),
      lastVal_ainsert_ne _ _ _ _ (by decide), lastVal_ainsert_self]
  · simp only [he, Bool.false_eq_true, if_false]
    rw [lastVal_ainsert_ne _ _ _ _ (by decide), lastVal_ainsert_ne _ _ _ _ (by decide),
      lastVal_ainsert_self]

theorem lastVal_build_security (gp : Option IdentityProvider)
    (newP : IdentityProvider) (cfg : AuthConfig) :
    lastVal securitySetting (buildProviderSettings gp newP cfg) =
      some (formatBool cfg.enabled) := by
  unfold buildProviderSettings
  by_cases he : cfg.enabled
  · simp only [he, if_true]
    rw [lastVal_ainsert_ne _ _ _ _ (by decide), lastVal_ainsert_ne _ _ _ _ (by decide),
      lastVal_ainsert_self, if_neg (formatBool_ne_nil _)]
  · simp only [he, Bool.false_eq_true, if_false]
    rw [lastVal_ainsert_ne _ _ _ _ (by decide), lastVal_ainsert_self,
      if_neg (formatBool_ne_nil _)]

theorem lastVal_build_providerName (gp : Option IdentityProvider)
    (newP : IdentityProvider) (cfg : AuthConfig) :
    lastVal providerNameSetting (buildProviderSettings gp newP cfg) =
      if cfg.provider = [] then none else some cfg.provider := by
  unfold buildProviderSettings
  by_cases he : cfg.enabled
  · simp only [he, if_true]
    rw [lastVal_ainsert_ne _ _ _ _ (by decide), lastVal_ainsert_self]
  · simp only [he, Bool.false_eq_true, if_false]
    rw [lastVal_ainsert_self]

theorem mem_build_providerSetting (gp : Option IdentityProvider)
    (newP : IdentityProvider) (cfg : AuthConfig) (v : Str)
    (hdisabled : cfg.enabled = false)
    (h : (providerSetting, v) ∈ buildProviderSettings gp newP cfg) :
    (providerSetting, v) ∈ newP.getSettings := by
  unfold buildProviderSettings at h
  simp only [hdisabled, Bool.false_eq_true, if_false] at h
  rcases mem_ainsert _ _ _ _ _ h with ⟨hk, _⟩ | ⟨h, _⟩
  · exact absurd hk (by decide)
  rcases mem_ainsert _ _ _ _ _ h with ⟨hk, _⟩ | ⟨h, _⟩
  · exact absurd hk (by decide)
  rcases mem_ainsert _ _ _ _ _ h with ⟨hk, _⟩ | ⟨h, _⟩
  · exact absurd hk (by decide)
  rcases mem_ainsert _ _ _ _ _ h with ⟨hk, _⟩ | ⟨h, _⟩
  · exact absurd hk (by decide)
  exact h

theorem mem_build_allowedIdentities (gp : Option IdentityProvider)
    (newP : IdentityProvider) (cfg : AuthConfig) (v : Str)
    (h : (allowedIdentitiesSetting, v) ∈ buildProviderSettings gp newP cfg) :
    v = getAllowedIDString gp cfg.allowedIdentities := by
  unfold buildProviderSettings at h
  by_cases he : cfg.enabled
  · simp only [he, if_true] at h
    rcases mem_ainsert _ _ _ _ _ h with ⟨hk, _⟩ | ⟨h, _⟩
    · exact absurd hk (by decide)
    rcases mem_ainsert _ _ _ _ _ h with ⟨hk, _⟩ | ⟨h, _⟩
    · exact absurd hk (by decide)
    rcases mem_ainsert _ _ _ _ _ h with ⟨hk, _⟩ | ⟨h, _⟩
    · exact absurd hk (by decide)
    rcases mem_ainsert _ _ _ _ _ h with ⟨_, hv⟩ | ⟨_, hne⟩
    · exact hv
    · exact absurd rfl hne
  · simp only [he, Bool.false_eq_true, if_false] at h
    rcases mem_ainsert _ _ _ _ _ h with ⟨hk, _⟩ | ⟨h, _⟩
    · exact absurd hk (by decide)
    rcases mem_ainsert _ _ _ _ _ h with ⟨hk, _⟩ | ⟨h, _⟩
    · exact absurd hk (by decide)
    rcases mem_ainsert _ _ _ _ _ h with ⟨_, hv⟩ | ⟨_, hne⟩
    · exact hv
    · exact absurd rfl hne

theorem resolveEntries_cons_split (p : Option IdentityProvider)
    (tok entry ty ext : Str) (rest : List Str)
    (hsplit : splitFirstChar ':' entry = some (ty, ext)) :
    resolveEntries p tok (entry :: rest) =
      (match p with
       | some pr =>
         if tok = [] then stubIdentity entry ty ext
         else
           match pr.getIdentity ext ty tok with
           | .ok r => r
           | .error _ => stubIdentity entry ty ext
       | none => stubIdentity entry ty ext) :: resolveEntries p tok rest := by
  rw [resolveEntries, hsplit]

theorem resolveEntries_cons_skip (p : Option IdentityProvider)
    (tok entry : Str) (rest : List Str)
    (hsplit : splitFirstChar ':' entry = none) :
    resolveEntries p tok (entry :: rest) = resolveEntries p tok rest := by
  rw [resolveEntries, hsplit]

theorem resolveEntries_pairs (p : Option IdentityProvider) (tok : Str)
    (hres : ∀ pr, p = some pr → ∀ ext ty t i, pr.getIdentity ext ty t = .ok i →
      i.externalId = ext ∧ i.externalIdType = ty)
    (l : List Identity)
    (hids : ∀ i ∈ l, i.id = i.externalIdType ++ ':' :: i.externalId ∧
      ':' ∉ i.externalIdType) :
    ∀ i ∈ l, ∃ j ∈ resolveEntries p tok (l.map Identity.id),
      j.externalIdType = i.externalIdType ∧ j.externalId = i.externalId := by
  induction l with
  | nil => intro i hi; simp at hi
  | cons i0 rest ih =>
    have h0 := hids i0 (List.mem_cons_self _ _)
    have hrest : ∀ i ∈ rest, i.id = i.externalIdType ++ ':' :: i.externalId ∧
        ':' ∉ i.externalIdType := fun i hi => hids i (List.mem_cons_of_mem _ hi)
    have hsplit : splitFirstChar ':' i0.id =
        some (i0.externalIdType, i0.externalId) := by
      rw [h0.1]
      exact splitFirstChar_of_prefix ':' _ _ h0.2
    intro i hi
    rw [List.map_cons, resolveEntries_cons_split p tok _ _ _ _ hsplit]
    rcases List.mem_cons.mp hi with he | hm
    · subst he
      cases p with
      | none =>
        exact ⟨stubIdentity i.id i.externalIdType i.externalId,
          List.mem_cons_self _ _, rfl, rfl⟩
      | some pr =>
        by_cases ht : tok = []
        · subst ht
          exact ⟨stubIdentity i.id i.externalIdType i.externalId,
            List.mem_cons_self _ _, rfl, rfl⟩
        · rcases List.exists_cons_of_ne_nil ht with ⟨c, cs, htok⟩
          subst htok
          cases hg : pr.getIdentity i.externalId i.externalIdType (c :: cs) with
          | ok ires =>
            obtain ⟨hext, hty⟩ := hres pr rfl _ _ _ _ hg
            refine ⟨ires, ?_, hty, hext⟩
            show ires ∈
              (match pr.getIdentity i.externalId i.externalIdType (c :: cs) with
               | .ok r => r
               | .error _ => stubIdentity i.id i.externalIdType i.externalId) ::
              resolveEntries (some pr) (c :: cs) (List.map Identity.id rest)
            rw [hg]
            exact List.mem_cons_self _ _
          | error e =>
            refine ⟨stubIdentity i.id i.externalIdType i.externalId, ?_, rfl, rfl⟩
            show stubIdentity i.id i.externalIdType i.externalId ∈
              (match pr.getIdentity i.externalId i.externalIdType (c :: cs) with
               | .ok r => r
               | .error _ => stubIdentity i.id i.externalIdType i.externalId) ::
              resolveEntries (some pr) (c :: cs) (List.map Identity.id rest)
            rw [hg]
            exact List.mem_cons_self _ _
    · obtain ⟨j, hjm, hj⟩ := ih hrest i hm
      exact ⟨j, List.mem_cons_of_mem _ hjm, hj⟩

theorem GetConfig_of_no_failures (reg : Registry) (p : Option IdentityProvider)
    (st : Store) (tok : Str) (entry : ProviderEntry)
    (hfr : st.failReads = [])
    (hreg : reg (st.get providerNameSetting) = some entry) :
    GetConfig reg p st tok =
      { config :=
          { resourceType := "config".toList,
            provider := st.get providerNameSetting,
            enabled := (match parseBool (st.get securitySetting) with
              | .ok e => e
              | .error _ => false),
            accessMode := st.get accessModeSetting,
            allowedIdentities := getAllowedIdentities p
              (st.get allowedIdentitiesSetting) tok,
            providerSpecific := entry.base.addProviderConfig
              (entry.base.getProviderSettingList.map fun k => (k, st.get k)) },
        err := none } := by
  simp only [GetConfig, readSettings_of_no_failures _ _ hfr, List.map_cons,
    List.map_nil]
  simp +decide only [mget, alookup, Option.getD_some, if_true, if_false]
  rw [hreg]
  rfl

theorem initProviderWithConfig_ok (reg : Registry) (cfg : AuthConfig)
    (entry : ProviderEntry) (newP : IdentityProvider)
    (hreg : reg cfg.provider = some entry)
    (hload : entry.loadConfig cfg = .ok newP) :
    initProviderWithConfig reg cfg = .ok newP := by
  unfold initProviderWithConfig
  rw [hreg]
  exact hload

theorem UpdateConfig_of_settings_ok (reg : Registry) (gp : Option IdentityProvider)
    (cfgMem : AuthConfig) (st : Store) (cfg : AuthConfig)
    (entry : ProviderEntry) (newP : IdentityProvider)
    (hreg : reg cfg.provider = some entry)
    (hload : entry.loadConfig cfg = .ok newP)
    (hok : (updateSettings st (buildProviderSettings gp newP cfg)).2 = none) :
    UpdateConfig reg gp cfgMem st cfg =
      { provider := some newP, config := cfg,
        store := (updateSettings st (buildProviderSettings gp newP cfg)).1,
        err := none } := by
  unfold UpdateConfig
  rw [initProviderWithConfig_ok reg cfg entry newP hreg hload]
  simp only [hok]

theorem UpdateConfig_of_settings_err (reg : Registry) (gp : Option IdentityProvider)
    (cfgMem : AuthConfig) (st : Store) (cfg : AuthConfig)
    (entry : ProviderEntry) (newP : IdentityProvider) (e : Str)
    (hreg : reg cfg.provider = some entry)
    (hload : entry.loadConfig cfg = .ok newP)
    (herr : (updateSettings st (buildProviderSettings gp newP cfg)).2 = some e) :
    UpdateConfig reg gp cfgMem st cfg =
      { provider := gp, config := cfgMem,
        store := (updateSettings st (buildProviderSettings gp newP cfg)).1,
        err := some e } := by
  unfold UpdateConfig
  rw [initProviderWithConfig_ok reg cfg entry newP hreg hload]
  simp only [herr]

/-- C3: for every AuthConfig whose provider field is the empty string,
UpdateConfig returns an error and the active provider, the in-memory
config and the store are exactly what they were before the call. -/
theorem spec_C3_empty_provider_rejected (reg : Registry)
    (gp : Option IdentityProvider) (cfgMem : AuthConfig) (st : Store)
    (cfg : AuthConfig) (hempty : cfg.provider = []) (hreg0 : reg [] = none) :
    (UpdateConfig reg gp cfgMem st cfg).err.isSome = true ∧
    (UpdateConfig reg gp cfgMem st cfg).provider = gp ∧
    (UpdateConfig reg gp cfgMem st cfg).config = cfgMem ∧
    (UpdateConfig reg gp cfgMem st cfg).store = st := by
  unfold UpdateConfig initProviderWithConfig
  rw [hempty, hreg0]
  exact ⟨rfl, rfl, rfl, rfl⟩

/-- C3 witness: a concrete empty-provider UpdateConfig call fails and
leaves the active state and the store untouched. -/
theorem spec_C3_empty_provider_rejected_witness :
    (UpdateConfig demoRegistry none emptyConfig demoStore emptyConfig).err.isSome = true ∧
    (UpdateConfig demoRegistry none emptyConfig demoStore emptyConfig).provider = none ∧
    (UpdateConfig demoRegistry none emptyConfig demoStore emptyConfig).config = emptyConfig ∧
    (UpdateConfig demoRegistry none emptyConfig demoStore emptyConfig).store = demoStore :=
  spec_C3_empty_provider_rejected demoRegistry none emptyConfig demoStore
    emptyConfig rfl rfl

/-- C4: with no active provider or an empty access token, the allow-list
entry "user:abc" resolves to the stub Identity with id "user:abc", type
"user", externalId "abc"; an entry with no colon contributes nothing and
does not prevent resolution of later entries; entries are split at the
first colon only, so the externalId may itself contain a colon. -/
theorem spec_C4_identity_resolution (p : Option IdentityProvider)
    (tok bad : Str) (rest : List Str) :
    ((p = none ∨ tok = []) →
      getAllowedIdentities p "user:abc".toList tok =
        [stubIdentity "user:abc".toList "user".toList "abc".toList]) ∧
    (':' ∉ bad → resolveEntries p tok (bad :: rest) = resolveEntries p tok rest) ∧
    splitFirstChar ':' "user:a:b".toList = some ("user".toList, "a:b".toList) := by
  refine ⟨?_, ?_, by decide⟩
  · rintro (hp | ht)
    · subst hp
      rfl
    · subst ht
      cases p with
      | none => rfl
      | some pr => rfl
  · intro hbad
    exact resolveEntries_cons_skip p tok bad rest
      (splitFirstChar_of_no_sep ':' bad hbad)

/-- C4 witness: concrete resolution with no provider, and a concrete
malformed entry being skipped without aborting. -/
theorem spec_C4_identity_resolution_witness :
    getAllowedIdentities none "user:abc".toList "t".toList =
      [stubIdentity "user:abc".toList "user".toList "abc".toList] ∧
    resolveEntries none "t".toList ["malformed".toList, "group:g".toList] =
      resolveEntries none "t".toList ["group:g".toList] ∧
    splitFirstChar ':' "user:a:b".toList = some ("user".toList, "a:b".toList) := by
  have h := spec_C4_identity_resolution none "t".toList "malformed".toList
    ["group:g".toList]
  exact ⟨h.1 (Or.inl rfl), h.2.1 (by decide), h.2.2⟩

/-- C5: with no active provider, CreateToken and RefreshToken return the
no-provider error for every signer and every input, invoking neither a
provider operation nor the signer. -/
theorem spec_C5_no_provider_token (sign : Signer) (code tok : Str) :
    CreateToken none sign code = .error "No auth provider configured".toList ∧
    RefreshToken none sign tok = .error "No auth provider configured".toList :=
  ⟨rfl, rfl⟩

/-- C6: in every claims payload built by CreateToken/RefreshToken, the
idList field is exactly the map of Resource.Id over the identities field
(same order, same length), and the payload signed is the one assembled by
makeTokenPayload from the provider token. -/
theorem spec_C6_idList_derived (t : ProviderToken) (pr : IdentityProvider)
    (sign : Signer) (code tok : Str) :
    (makeTokenPayload t).idList = (makeTokenPayload t).identities.map Identity.id ∧
    (makeTokenPayload t).idList.length = (makeTokenPayload t).identities.length ∧
    (makeTokenPayload t).identities = t.identityList ∧
    CreateToken (some pr) sign code =
      (pr.generateToken code).bind (fun tk => sign (makeTokenPayload tk)) ∧
    RefreshToken (some pr) sign tok =
      (pr.refreshTokenOp tok).bind (fun tk => sign (makeTokenPayload tk)) := by
  refine ⟨rfl, by simp [makeTokenPayload, identitiesToIDList], rfl, ?_, ?_⟩
  · show (match pr.generateToken code with
      | Except.error e => Except.error e
      | Except.ok token => sign (makeTokenPayload token)) =
      (pr.generateToken code).bind fun tk => sign (makeTokenPayload tk)
    cases pr.generateToken code <;> rfl
  · show (match pr.refreshTokenOp tok with
      | Except.error e => Except.error e
      | Except.ok token => sign (makeTokenPayload token)) =
      (pr.refreshTokenOp tok).bind fun tk => sign (makeTokenPayload tk)
    cases pr.refreshTokenOp tok <;> rfl

/-- C9: the settings-update loop never writes a key whose new value is the
empty string — removing the empty-valued entries changes nothing, and a key
all of whose bindings are empty keeps its previously stored value. -/
theorem spec_C9_empty_values_skipped (st : Store) (l : List (Str × Str))
    (k : Str) :
    updateSettings st l = updateSettings st (dropEmptyVals l) ∧
    ((∀ kv ∈ l, kv.1 = k → kv.2 = []) →
      ((updateSettings st l).1).get k = st.get k) :=
  ⟨updateSettings_dropEmptyVals l st,
   fun hall => updateSettings_get_of_all_empty l st k hall⟩

/-- C9 witness: a concrete update map binding a key to the empty string
leaves that key's previously stored value unchanged. -/
theorem spec_C9_empty_values_skipped_witness :
    ((updateSettings c1CexStore
        [(accessModeSetting, []), (securitySetting, "true".toList)]).1).get
      accessModeSetting = c1CexStore.get accessModeSetting :=
  (spec_C9_empty_values_skipped c1CexStore
    [(accessModeSetting, []), (securitySetting, "true".toList)]
    accessModeSetting).2 (by decide)

/-- C10: the allow-list serialized while no provider is active is the empty
string regardless of the submitted identities, so an UpdateConfig call made
with no active provider leaves the persisted allow-list key unchanged. -/
theorem spec_C10_allowlist_uses_old_provider (reg : Registry)
    (cfgMem : AuthConfig) (st : Store) (cfg : AuthConfig)
    (ids : List Identity) :
    getAllowedIDString none ids = [] ∧
    (UpdateConfig reg none cfgMem st cfg).store.get allowedIdentitiesSetting =
      st.get allowedIdentitiesSetting := by
  refine ⟨rfl, ?_⟩
  unfold UpdateConfig
  cases hinit : initProviderWithConfig reg cfg with
  | error e => rfl
  | ok newP =>
    have hall : ∀ kv ∈ buildProviderSettings none newP cfg,
        kv.1 = allowedIdentitiesSetting → kv.2 = [] := by
      intro kv hkv hk
      obtain ⟨k1, v1⟩ := kv
      simp only at hk ⊢
      subst hk
      exact mem_build_allowedIdentities none newP cfg v1 hkv
    cases h2 : (updateSettings st (buildProviderSettings none newP cfg)).2 with
    | some e =>
      simp only [h2]
      exact updateSettings_get_of_all_empty _ st allowedIdentitiesSetting hall
    | none =>
      simp only [h2]
      exact updateSettings_get_of_all_empty _ st allowedIdentitiesSetting hall

/-- C7: when the new config has enabled=false (and the provider exports no
binding for the configured-provider key, as the spec's settings-map layout
requires), UpdateConfig leaves the persisted configured-provider key at its
prior value, whatever the outcome of the call. -/
theorem spec_C7_disable_keeps_provider_key (reg : Registry)
    (gp : Option IdentityProvider) (cfgMem : AuthConfig) (st : Store)
    (cfg : AuthConfig) (hdisabled : cfg.enabled = false)
    (hdisj : ∀ entry newP, reg cfg.provider = some entry →
      entry.loadConfig cfg = .ok newP →
      providerSetting ∉ newP.getSettings.map Prod.fst) :
    (UpdateConfig reg gp cfgMem st cfg).store.get providerSetting =
      st.get providerSetting := by
  unfold UpdateConfig
  cases hinit : initProviderWithConfig reg cfg with
  | error e => rfl
  | ok newP =>
    obtain ⟨entry, hre, hle⟩ : ∃ entry, reg cfg.provider = some entry ∧
        entry.loadConfig cfg = .ok newP := by
      unfold initProviderWithConfig at hinit
      cases hr : reg cfg.provider with
      | none =>
        rw [hr] at hinit
        exact absurd hinit (by simp)
      | some entry =>
        rw [hr] at hinit
        exact ⟨entry, rfl, hinit⟩
    have hnotin := hdisj entry newP hre hle
    have hall : ∀ kv ∈ buildProviderSettings gp newP cfg,
        kv.1 = providerSetting → kv.2 = [] := by
      intro kv hkv hk
      obtain ⟨k1, v1⟩ := kv
      simp only at hk ⊢
      subst hk
      have hmem := mem_build_providerSetting gp newP cfg v1 hdisabled hkv
      exact absurd (List.mem_map.mpr ⟨(providerSetting, v1), hmem, rfl⟩) hnotin
    cases h2 : (updateSettings st (buildProviderSettings gp newP cfg)).2 with
    | some e =>
      simp only [h2]
      exact updateSettings_get_of_all_empty _ st providerSetting hall
    | none =>
      simp only [h2]
      exact updateSettings_get_of_all_empty _ st providerSetting hall

/-- C7 witness: a concrete disabling UpdateConfig call leaves the stored
configured-provider key at its prior value. -/
theorem spec_C7_disable_keeps_provider_key_witness :
    (UpdateConfig demoRegistry none emptyConfig c1CexStore c7Config).store.get
        providerSetting = c1CexStore.get providerSetting :=
  spec_C7_disable_keeps_provider_key demoRegistry none emptyConfig c1CexStore
    c7Config rfl
    (by
      intro entry newP h1 h2
      have h1' : some demoEntry = some entry := h1
      cases h1'
      have h2' : Except.ok demoProvider = Except.ok newP := h2
      cases h2'
      decide)

/-- C8: once the new provider loads, a failing settings write makes
UpdateConfig return exactly that error with the in-memory (provider, config)
pair unchanged, while a fully successful write sequence swaps the pair to
the new provider and the submitted config. -/
theorem spec_C8_write_failure_aborts (reg : Registry)
    (gp : Option IdentityProvider) (cfgMem : AuthConfig) (st : Store)
    (cfg : AuthConfig) (entry : ProviderEntry) (newP : IdentityProvider)
    (hreg : reg cfg.provider = some entry)
    (hload : entry.loadConfig cfg = .ok newP) :
    (∀ e, (updateSettings st (buildProviderSettings gp newP cfg)).2 = some e →
      (UpdateConfig reg gp cfgMem st cfg).err = some e ∧
      (UpdateConfig reg gp cfgMem st cfg).provider = gp ∧
      (UpdateConfig reg gp cfgMem st cfg).config = cfgMem) ∧
    ((updateSettings st (buildProviderSettings gp newP cfg)).2 = none →
      (UpdateConfig reg gp cfgMem st cfg).provider = some newP ∧
      (UpdateConfig reg gp cfgMem st cfg).config = cfg ∧
      (UpdateConfig reg gp cfgMem st cfg).err = none) := by
  constructor
  · intro e he
    rw [UpdateConfig_of_settings_err reg gp cfgMem st cfg entry newP e hreg hload he]
    exact ⟨rfl, rfl, rfl⟩
  · intro hok
    rw [UpdateConfig_of_settings_ok reg gp cfgMem st cfg entry newP hreg hload hok]
    exact ⟨rfl, rfl, rfl⟩

/-- C8 witness: at a store whose write of the security key fails, a concrete
UpdateConfig call returns that write error and keeps the prior in-memory
pair. -/
theorem spec_C8_write_failure_aborts_witness :
    (UpdateConfig demoRegistry none emptyConfig c8Store c1CexConfig).err =
      some ("setting write failed: ".toList ++ securitySetting) ∧
    (UpdateConfig demoRegistry none emptyConfig c8Store c1CexConfig).provider = none ∧
    (UpdateConfig demoRegistry none emptyConfig c8Store c1CexConfig).config = emptyConfig :=
  (spec_C8_write_failure_aborts demoRegistry none emptyConfig c8Store
    c1CexConfig demoEntry demoProvider rfl rfl).1
    ("setting write failed: ".toList ++ securitySetting) (by decide)

/-- C2: at a store where only the provider-specific key read fails, the
inner readSettings call errors, yet GetConfig returns no error (the read
error is dropped) and Reload, whose embedded GetConfig performed the failing
read, returns no error either. -/
theorem spec_C2_swallowed_store_error :
    (readSettings c2Store c2Provider.getProviderSettingList).2.isSome = true ∧
    (GetConfig c2Registry none c2Store []).err = none ∧
    (Reload c2Registry none emptyConfig c2Store).err = none := by
  refine ⟨by decide, by decide, by decide⟩

/-- C1 counterexample: with no provider active before the call, a fully
valid AuthConfig (registered provider "github", one allow-list identity
(user, abc)) passes UpdateConfig successfully, yet the following GetConfig
returns an allow-list that does not contain any identity with the
(externalIdType, externalId) pair of the submitted entry — the stale stored
allow-list survives because the serialization consulted the old nil
provider. -/
theorem spec_C1_round_trip_counterexample :
    (UpdateConfig demoRegistry none emptyConfig c1CexStore c1CexConfig).err = none ∧
    c1CexConfig.allowedIdentities =
      [stubIdentity "user:abc".toList "user".toList "abc".toList] ∧
    ¬ ∃ j ∈ (getAfterUpdate demoRegistry none emptyConfig c1CexStore c1CexConfig
        "tok".toList).config.allowedIdentities,
      j.externalIdType = "user".toList ∧ j.externalId = "abc".toList := by
  refine ⟨by decide, by decide, by decide⟩

/-- C1 (amended): for every valid AuthConfig whose provider names a
registered provider, provided a provider is active before the call, the
accessMode is non-empty, every allow-list identity's id is its
externalIdType and externalId joined by a colon (no colon in the type, no
comma in the id), the provider resolves identities to the queried pair, and
store reads succeed, GetConfig (with any access token) after a successful
UpdateConfig(config) returns, without error, a config whose provider,
enabled and accessMode equal those of the original and whose
allowedIdentities contain, for each original entry, a stub or resolved
Identity with the same (externalIdType, externalId) pair. -/
theorem spec_C1_round_trip (reg : Registry) (gp0 : IdentityProvider)
    (cfgMem : AuthConfig) (st : Store) (cfg : AuthConfig) (tok : Str)
    (entry : ProviderEntry) (newP : IdentityProvider)
    (hreg : reg cfg.provider = some entry)
    (hload : entry.loadConfig cfg = .ok newP)
    (hprov : ¬ cfg.provider = [])
    (ham : ¬ cfg.accessMode = [])
    (hids : ∀ i ∈ cfg.allowedIdentities,
      i.id = i.externalIdType ++ ':' :: i.externalId ∧
      ':' ∉ i.externalIdType ∧ ',' ∉ i.id)
    (hres : ∀ ext ty t i, newP.getIdentity ext ty t = .ok i →
      i.externalId = ext ∧ i.externalIdType = ty)
    (hreads : st.failReads = [])
    (hupd : (UpdateConfig reg (some gp0) cfgMem st cfg).err = none) :
    (getAfterUpdate reg (some gp0) cfgMem st cfg tok).err = none ∧
    (getAfterUpdate reg (some gp0) cfgMem st cfg tok).config.provider =
      cfg.provider ∧
    (getAfterUpdate reg (some gp0) cfgMem st cfg tok).config.enabled =
      cfg.enabled ∧
    (getAfterUpdate reg (some gp0) cfgMem st cfg tok).config.accessMode =
      cfg.accessMode ∧
    ∀ i ∈ cfg.allowedIdentities,
      ∃ j ∈ (getAfterUpdate reg (some gp0) cfgMem st cfg tok).config.allowedIdentities,
        j.externalIdType = i.externalIdType ∧ j.externalId = i.externalId := by
  have hok : (updateSettings st (buildProviderSettings (some gp0) newP cfg)).2 = none := by
    cases h2 : (updateSettings st (buildProviderSettings (some gp0) newP cfg)).2 with
    | none => rfl
    | some e =>
      rw [UpdateConfig_of_settings_err reg (some gp0) cfgMem st cfg entry newP e
        hreg hload h2] at hupd
      exact absurd hupd (by simp)
  have hU := UpdateConfig_of_settings_ok reg (some gp0) cfgMem st cfg entry newP
    hreg hload hok
  have hfr2 : ((updateSettings st (buildProviderSettings (some gp0) newP cfg)).1).failReads = [] := by
    rw [updateSettings_failReads]
    exact hreads
  have hpn : ((updateSettings st (buildProviderSettings (some gp0) newP cfg)).1).get
      providerNameSetting = cfg.provider := by
    rw [updateSettings_get_of_ok _ _ hok, lastVal_build_providerName]
    simp [hprov]
  have ham2 : ((updateSettings st (buildProviderSettings (some gp0) newP cfg)).1).get
      accessModeSetting = cfg.accessMode := by
    rw [updateSettings_get_of_ok _ _ hok, lastVal_build_accessMode]
    simp [ham]
  have hsec : ((updateSettings st (buildProviderSettings (some gp0) newP cfg)).1).get
      securitySetting = formatBool cfg.enabled := by
    rw [updateSettings_get_of_ok _ _ hok, lastVal_build_security]
    rfl
  have hreg2 : reg (((updateSettings st (buildProviderSettings (some gp0) newP cfg)).1).get
      providerNameSetting) = some entry := by
    rw [hpn]
    exact hreg
  have hG := GetConfig_of_no_failures reg (some newP)
    ((updateSettings st (buildProviderSettings (some gp0) newP cfg)).1) tok entry
    hfr2 hreg2
  have hGA : getAfterUpdate reg (some gp0) cfgMem st cfg tok =
      GetConfig reg (some newP)
        ((updateSettings st (buildProviderSettings (some gp0) newP cfg)).1) tok := by
    unfold getAfterUpdate
    rw [hU]
  rw [hGA, hG]
  refine ⟨rfl, hpn, ?_, ham2, ?_⟩
  · show (match parseBool (((updateSettings st
        (buildProviderSettings (some gp0) newP cfg)).1).get securitySetting) with
      | Except.ok e => e
      | Except.error _ => false) = cfg.enabled
    rw [hsec, parseBool_formatBool]
  · show ∀ i ∈ cfg.allowedIdentities,
      ∃ j ∈ getAllowedIdentities (some newP)
        (((updateSettings st (buildProviderSettings (some gp0) newP cfg)).1).get
          allowedIdentitiesSetting) tok,
        j.externalIdType = i.externalIdType ∧ j.externalId = i.externalId
    intro i hi
    have hlnil : cfg.allowedIdentities ≠ [] := by
      intro h0
      rw [h0] at hi
      simp at hi
    obtain ⟨i0, rest, hca⟩ := List.exists_cons_of_ne_nil hlnil
    have hids0 := hids i0 (by rw [hca]; exact List.mem_cons_self _ _)
    have hid0ne : i0.id ≠ [] := by
      rw [hids0.1]
      intro hc
      rcases List.append_eq_nil.mp hc with ⟨_, h2⟩
      exact List.cons_ne_nil _ _ h2
    have hidsne : getAllowedIDString (some gp0) cfg.allowedIdentities ≠ [] := by
      show joinWithChar ',' (cfg.allowedIdentities.map Identity.id) ≠ []
      rw [hca, List.map_cons]
      exact joinWithChar_ne_nil ',' _ _ hid0ne
    have halk : ((updateSettings st (buildProviderSettings (some gp0) newP cfg)).1).get
        allowedIdentitiesSetting =
        getAllowedIDString (some gp0) cfg.allowedIdentities := by
      rw [updateSettings_get_of_ok _ _ hok, lastVal_build_allowedIdentities]
      simp [hidsne]
    have hsplitjoin : splitOnChar ','
        (getAllowedIDString (some gp0) cfg.allowedIdentities) =
        cfg.allowedIdentities.map Identity.id := by
      show splitOnChar ',' (joinWithChar ',' (cfg.allowedIdentities.map Identity.id)) =
        cfg.allowedIdentities.map Identity.id
      apply splitOnChar_joinWithChar
      · rw [hca]
        simp
      · intro pp hp
        obtain ⟨ii, him, hpe⟩ := List.mem_map.mp hp
        rw [← hpe]
        exact (hids ii him).2.2
    have hga : getAllowedIdentities (some newP)
        (((updateSettings st (buildProviderSettings (some gp0) newP cfg)).1).get
          allowedIdentitiesSetting) tok =
        resolveEntries (some newP) tok (cfg.allowedIdentities.map Identity.id) := by
      rw [halk]
      unfold getAllowedIdentities
      rw [if_neg hidsne, hsplitjoin]
    rw [hga]
    exact resolveEntries_pairs (some newP) tok
      (fun pr hpr ext ty t j hj => by
        cases hpr
        exact hres ext ty t j hj)
      cfg.allowedIdentities
      (fun ii him => ⟨(hids ii him).1, (hids ii him).2.1⟩) i hi

/-- C1 witness: a concrete round-trip with an active prior provider, the
registered provider "github", non-empty accessMode and the well-formed
allow-list entry (user, abc) satisfies the amended round-trip property. -/
theorem spec_C1_round_trip_witness :
    (getAfterUpdate demoRegistry (some demoProvider) emptyConfig demoStore
      c1CexConfig "tok".toList).err = none ∧
    (getAfterUpdate demoRegistry (some demoProvider) emptyConfig demoStore
      c1CexConfig "tok".toList).config.provider = c1CexConfig.provider ∧
    (getAfterUpdate demoRegistry (some demoProvider) emptyConfig demoStore
      c1CexConfig "tok".toList).config.enabled = c1CexConfig.enabled ∧
    (getAfterUpdate demoRegistry (some demoProvider) emptyConfig demoStore
      c1CexConfig "tok".toList).config.accessMode = c1CexConfig.accessMode ∧
    ∀ i ∈ c1CexConfig.allowedIdentities,
      ∃ j ∈ (getAfterUpdate demoRegistry (some demoProvider) emptyConfig demoStore
        c1CexConfig "tok".toList).config.allowedIdentities,
        j.externalIdType = i.externalIdType ∧ j.externalId = i.externalId :=
  spec_C1_round_trip demoRegistry demoProvider emptyConfig demoStore c1CexConfig
    "tok".toList demoEntry demoProvider rfl rfl (by decide) (by decide)
    (by decide) (fun _ _ _ _ h => nomatch h) rfl (by decide)
